import Mathlib

/-!
Shallow embedding of the TradeCraft-AI graph interpreter
(src/backend/main.py) and proofs about the frozen claims.

Python floats are modelled as rationals, dicts as insertion-ordered
association lists, raised exceptions as `Except Err`, and the external
collaborators (the `eval`-based expression/condition evaluators, the
price, news and sentiment providers) as an `Oracle` of parameter
functions, since the walker only observes their returned value or the
fact that they raised.  The recursive walk is embedded with a fuel
argument; fuel exhaustion is a distinguished error no Python run can
produce, and every theorem quantifies over or instantiates fuel so that
the fuel never masks behaviour.
-/

namespace TradeCraft

/-- Scalar values a run stores in `ctx.vars` / `ctx.last_output`:
only numbers and strings ever reach them in main.py. -/
inductive Value where
  | num (q : ℚ)
  | str (s : String)
deriving DecidableEq

/-- Exceptions: KeyError (missing dict key), ValueError (float() and
friends), the no-START HTTPException, a raised provider call, and the
embedding-only fuel exhaustion. -/
inductive Err where
  | keyError (k : String)
  | valueError
  | noStartNode
  | providerError
  | outOfFuel
deriving DecidableEq

/-- One appended log line, abstracted as the call site tag plus the data
the f-string at that site interpolates (main.py lines 128-267). -/
inductive LogEntry where
  | startLog
  | varStored (name : String) (v : Value)
  | varNoName
  | varNoData (name : String)
  | mathCalc (expr : String) (r : ℚ)
  | mathError
  | mathNoExpr
  | condEval (cond : String) (result : Bool)
  | condError
  | condNoCond
  | budgetSet (q : ℚ)
  | scrape (ticker : String) (price : ℚ)
  | news (s : String)
  | sentiment (q : ℚ)
  | risk (q : ℚ)
  | bought (amt : ℚ) (ticker : String) (price : ℚ)
  | sold (amt : ℚ) (ticker : String) (price : ℚ)
  | tradeFailed
  | outputLog (name : String) (v : Option Value)
deriving DecidableEq

/-- Python dict lookup on an insertion-ordered association list. -/
def lookupKey {α : Type} : List (String × α) → String → Option α
  | [], _ => none
  | (k2, v) :: rest, k => if k2 = k then some v else lookupKey rest k

/-- Python dict assignment: overwrite in place, else append. -/
def setKey {α : Type} : List (String × α) → String → α → List (String × α)
  | [], k, v => [(k, v)]
  | (k2, v2) :: rest, k, v =>
      if k2 = k then (k2, v) :: rest else (k2, v2) :: setKey rest k v

/-- The per-run mutable state (TradingContext.__init__, main.py 25-31). -/
structure TradingContext where
  vars : List (String × Value)
  budget : ℚ
  holdings : List (String × ℚ)
  logs : List LogEntry
  last_output : Option Value
deriving DecidableEq

/-- A fresh context: empty vars and log, zero budget, holdings seeded
with exactly BTC and ETH at 0 (main.py line 29). -/
def initContext : TradingContext :=
  { vars := [], budget := 0, holdings := [("BTC", 0), ("ETH", 0)],
    logs := [], last_output := none }

/-- Python whitespace on the inputs in play: ASCII whitespace (also the
class the xor rewrite pattern skips). -/
def isSpaceChar (c : Char) : Bool :=
  c == ' ' || c == '\t' || c == '\n' || c == '\r' || c == '\x0b' || c == '\x0c'

/-- Python str.strip(): drop whitespace from both ends. -/
def pyStrip (s : String) : String :=
  String.mk (((s.toList.dropWhile isSpaceChar).reverse.dropWhile isSpaceChar).reverse)

/-- Digits of a decimal literal folded to a natural number (0 for []). -/
def digitsVal : List Char → ℕ → ℕ
  | [], acc => acc
  | c :: cs, acc => digitsVal cs (acc * 10 + (c.toNat - 48))

/-- Python float() on a trimmed character list, restricted to the plain
sign / digits / single dot literals the payloads use; anything else
(including the empty string) is a parse failure. -/
def pyFloatChars (cs0 : List Char) : Option ℚ :=
  let signed : ℚ × List Char :=
    match cs0 with
    | '-' :: r => (-1, r)
    | '+' :: r => (1, r)
    | r => (1, r)
  let body := signed.2
  let ip := body.takeWhile (fun c => c ≠ '.')
  let rest := body.dropWhile (fun c => c ≠ '.')
  match rest with
  | [] =>
      if ip ≠ [] ∧ ip.all Char.isDigit then some (signed.1 * digitsVal ip 0) else none
  | _ :: fp =>
      if (ip ≠ [] ∨ fp ≠ []) ∧ ip.all Char.isDigit ∧ fp.all Char.isDigit then
        some (signed.1 * ((digitsVal ip 0 : ℚ) + (digitsVal fp 0 : ℚ) / (10 : ℚ) ^ fp.length))
      else none

/-- Python float() on a string (leading/trailing whitespace allowed). -/
def pyFloat (s : String) : Option ℚ := pyFloatChars (pyStrip s).toList

/-- Python float() applied to a stored scalar: numbers pass through,
strings are parsed, a bad string raises ValueError. -/
def pyFloatOfValue : Value → Except Err ℚ
  | .num q => .ok q
  | .str s => match pyFloat s with
      | some q => .ok q
      | none => .error .valueError

/-- Python truthiness of a stored scalar (0 and "" are falsy). -/
def isFalsy : Value → Bool
  | .num q => q = 0
  | .str s => s = ""

/-- The idiom `float(d.get(field) or 0)`: a missing or falsy field gives
0.0, anything else goes through float() and may raise. -/
def coerceOrZero : Option Value → Except Err ℚ
  | none => .ok 0
  | some v => if isFalsy v then .ok 0 else pyFloatOfValue v

/-- One `{value, weight}` entry of a RISK_ANALYSIS node. -/
structure RiskInput where
  value : String
  weight : Option Value
deriving DecidableEq

/-- The category-specific fields of a node payload that main.py reads;
a field the payload omits is `none` (Python `data.get`). -/
structure NodeData where
  category : Option String
  variableName : Option String
  expression : Option String
  condition : Option String
  manualValue : Option Value
  ticker : Option String
  riskInputs : List RiskInput
deriving DecidableEq

/-- A node payload with no fields set, for building fixtures. -/
def emptyData : NodeData :=
  { category := none, variableName := none, expression := none,
    condition := none, manualValue := none, ticker := none, riskInputs := [] }

structure Node where
  id : String
  data : NodeData
deriving DecidableEq

structure Edge where
  source : String
  target : String
  sourceHandle : Option String
deriving DecidableEq

/-- External collaborators and the eval-based sub-evaluators, seen from
the walker only through their outcome: `evalMath`/`evalCond` return
`none` when evaluate_math / evaluate_condition raises, `price` returns
`none` when the yfinance call raises, `headline` is the drawn headline
and `sentiment` the final clamped (or random fallback) score. -/
structure Oracle where
  evalMath : String → List (String × Value) → Option ℚ
  evalCond : String → List (String × Value) → Option Bool
  price : String → Option ℚ
  headline : String
  sentiment : Value → ℚ

/-- The BUY/SELL price: `ctx.last_output if isinstance(..., (int, float))
else 0` (main.py line 249). -/
def priceOf : Option Value → ℚ
  | some (.num q) => q
  | _ => 0

inductive TradeSide where
  | buy
  | sell
deriving DecidableEq

/-- Budget plus holdings, the state a trade touches. -/
structure Wallet where
  budget : ℚ
  holdings : List (String × ℚ)
deriving DecidableEq

/-- The initial wallet of a run. -/
def initWallet : Wallet := { budget := initContext.budget, holdings := initContext.holdings }

/-- The BUY/SELL state change (main.py lines 251-260): a BUY needs
`amt * price <= budget`, a SELL needs `holdings[ticker] >= amt`, and a
holdings access with an unknown ticker raises KeyError.  On the failed
guard the wallet is untouched and only a failure line is logged. -/
def tradeStep (side : TradeSide) (ticker : String) (amt price : ℚ) (w : Wallet) :
    Except Err (Wallet × LogEntry) :=
  match side with
  | .buy =>
      if amt * price ≤ w.budget then
        match lookupKey w.holdings ticker with
        | none => .error (.keyError ticker)
        | some h =>
            .ok ({ budget := w.budget - amt * price,
                   holdings := setKey w.holdings ticker (h + amt) },
                 .bought amt ticker price)
      else .ok (w, .tradeFailed)
  | .sell =>
      match lookupKey w.holdings ticker with
      | none => .error (.keyError ticker)
      | some h =>
          if h ≥ amt then
            .ok ({ budget := w.budget + amt * price,
                   holdings := setKey w.holdings ticker (h - amt) },
                 .sold amt ticker price)
          else .ok (w, .tradeFailed)

/-- Resolution of one RISK_ANALYSIS value: a variable name if present
(then float() of the stored scalar, which may raise), else the literal
through a guarded float() whose failure becomes 0 (main.py 227-234). -/
def riskResolve (vars : List (String × Value)) (item : RiskInput) : Except Err ℚ :=
  match lookupKey vars item.value with
  | some v => pyFloatOfValue v
  | none => .ok ((pyFloat item.value).getD 0)

/-- The RISK_ANALYSIS accumulation loop: weighted sum and weight total
in payload order (main.py 226-238). -/
def riskAccumAux (vars : List (String × Value)) :
    List RiskInput → ℚ → ℚ → Except Err (ℚ × ℚ)
  | [], s, t => .ok (s, t)
  | item :: rest, s, t => do
      let v ← riskResolve vars item
      let w ← coerceOrZero item.weight
      riskAccumAux vars rest (s + v * w) (t + w)

def riskAccum (vars : List (String × Value)) (items : List RiskInput) :
    Except Err (ℚ × ℚ) :=
  riskAccumAux vars items 0 0

/-- The final risk score: `abs(w_sum / w_total)` if `w_total > 0` else 0,
then `min(1, ...)` (main.py 240-241). -/
def riskScore (vars : List (String × Value)) (items : List RiskInput) :
    Except Err ℚ := do
  let st ← riskAccum vars items
  let r : ℚ := if 0 < st.2 then |st.1 / st.2| else 0
  .ok (min 1 r)

/-- Category dispatch for every category except CONDITION (which owns
its recursion): the context mutation, log line and last_output update of
main.py lines 127-268, with a raised exception as `.error`. -/
def dispatch (oc : Oracle) (data : NodeData) (ctx : TradingContext) :
    Except Err TradingContext :=
  let cat := data.category
  if cat = some "START" then
    .ok { ctx with logs := ctx.logs ++ [.startLog], last_output := none }
  else if cat = some "VARIABLE" then
    let name := pyStrip (data.variableName.getD "")
    let ctx : TradingContext :=
      if name ≠ "" then
        match ctx.last_output with
        | some v => { ctx with vars := setKey ctx.vars name v,
                               logs := ctx.logs ++ [.varStored name v] }
        | none => { ctx with logs := ctx.logs ++ [.varNoData name] }
      else { ctx with logs := ctx.logs ++ [.varNoName] }
    .ok { ctx with last_output := none }
  else if cat = some "MATH" then
    let expr := pyStrip (data.expression.getD "")
    if expr ≠ "" then
      match oc.evalMath expr ctx.vars with
      | some r => .ok { ctx with logs := ctx.logs ++ [.mathCalc expr r],
                                 last_output := some (.num r) }
      | none => .ok { ctx with logs := ctx.logs ++ [.mathError],
                               last_output := some (.num 0) }
    else .ok { ctx with logs := ctx.logs ++ [.mathNoExpr],
                        last_output := some (.num 0) }
  else if cat = some "SET_BUDGET" then do
    let b ← coerceOrZero data.manualValue
    .ok { ctx with budget := b, logs := ctx.logs ++ [.budgetSet b],
                   last_output := some (.num b) }
  else if cat = some "SCRAPE_BTC" ∨ cat = some "SCRAPE_ETH" then
    let tk := if cat = some "SCRAPE_BTC" then "BTC-USD" else "ETH-USD"
    match oc.price tk with
    | some p => .ok { ctx with logs := ctx.logs ++ [.scrape tk p],
                               last_output := some (.num p) }
    | none => .error .providerError
  else if cat = some "NEWS_SCRAPER" then
    .ok { ctx with logs := ctx.logs ++ [.news oc.headline],
                   last_output := some (.str oc.headline) }
  else if cat = some "SEND_TO_LLM" then
    let txt := (lookupKey ctx.vars (data.variableName.getD "")).getD (.str "neutral")
    let score := oc.sentiment txt
    .ok { ctx with logs := ctx.logs ++ [.sentiment score],
                   last_output := some (.num score) }
  else if cat = some "RISK_ANALYSIS" then do
    let r ← riskScore ctx.vars data.riskInputs
    .ok { ctx with logs := ctx.logs ++ [.risk r],
                   last_output := some (.num r) }
  else if cat = some "BUY" ∨ cat = some "SELL" then do
    let side := if cat = some "BUY" then TradeSide.buy else TradeSide.sell
    let ticker := data.ticker.getD "BTC"
    let amt ← coerceOrZero data.manualValue
    let price := priceOf ctx.last_output
    let res ← tradeStep side ticker amt price { budget := ctx.budget, holdings := ctx.holdings }
    .ok { ctx with budget := res.1.budget, holdings := res.1.holdings,
                   logs := ctx.logs ++ [res.2], last_output := none }
  else if cat = some "OUTPUT" then
    let name := data.variableName.getD ""
    .ok { ctx with logs := ctx.logs ++ [.outputLog name (lookupKey ctx.vars name)],
                   last_output := none }
  else
    .ok ctx

/-- The outgoing (target, sourceHandle) pairs of a node, in payload edge
order (main.py line 165). -/
def outgoingPairs (edges : List Edge) (node_id : String) : List (String × Option String) :=
  (edges.filter (fun e => e.source = node_id)).map (fun e => (e.target, e.sourceHandle))

/-- The outgoing targets of a node regardless of handle (main.py 272). -/
def outgoingTargets (edges : List Edge) (node_id : String) : List String :=
  (edges.filter (fun e => e.source = node_id)).map Edge.target

/-- The branch label a CONDITION result selects. -/
def condHandle (b : Bool) : String := if b then "yes" else "no"

/-- The outgoing pairs of a CONDITION node whose handle matches the
evaluated boolean. -/
def matchedPairs (edges : List Edge) (node_id : String) (b : Bool) :
    List (String × Option String) :=
  (outgoingPairs edges node_id).filter (fun p => p.2 = some (condHandle b))

/-- `node_map = {n["id"]: n for n in nodes}` (main.py 109): a Python
dict comprehension, so a repeated id keeps the later node. -/
def buildNodeMap (nodes : List Node) : List (String × NodeData) :=
  nodes.foldl (fun m n => setKey m n.id n.data) []

/-- The body of the CONDITION loop over outgoing edges (main.py
167-171): recurse into a target when the evaluated result selects its
handle, leave the state alone otherwise.  `g` is the recursive call. -/
def condStep {σ : Type} (g : String → σ → Except Err σ) (result : Bool)
    (st : σ) (p : String × Option String) : Except Err σ :=
  if result ∧ p.2 = some "yes" then g p.1 st
  else if ¬ result ∧ p.2 = some "no" then g p.1 st
  else .ok st

/-- The recursive walk `execute_from_node` (main.py 116-274), with the
visited set as a list of ids queried only through membership.  A node
already visited returns the state unchanged; otherwise the id is added,
the node is dispatched, and the walk recurses: a CONDITION node with a
successfully evaluated condition recurses into exactly the outgoing
edges whose handle matches the result and then stops, every other
outcome of CONDITION stops immediately, and every non-CONDITION
category recurses into all outgoing targets. -/
def execute_from_node (oc : Oracle) (nodeMap : List (String × NodeData))
    (edges : List Edge) :
    ℕ → String → TradingContext → List String →
    Except Err (TradingContext × List String)
  | 0, _, _, _ => .error .outOfFuel
  | fuel + 1, node_id, ctx, visited =>
    if node_id ∈ visited then .ok (ctx, visited)
    else
      let visited := node_id :: visited
      match lookupKey nodeMap node_id with
      | none => .error (.keyError node_id)
      | some data =>
        if data.category = some "CONDITION" then
          let condition := pyStrip (data.condition.getD "")
          if condition ≠ "" then
            match oc.evalCond condition ctx.vars with
            | some result =>
                (outgoingPairs edges node_id).foldlM
                  (condStep
                    (fun t st => execute_from_node oc nodeMap edges fuel t st.1 st.2)
                    result)
                  ({ ctx with logs := ctx.logs ++ [.condEval condition result] }, visited)
            | none =>
                .ok ({ ctx with logs := ctx.logs ++ [.condError] }, visited)
          else
            .ok ({ ctx with logs := ctx.logs ++ [.condNoCond] }, visited)
        else do
          let ctx ← dispatch oc data ctx
          (outgoingTargets edges node_id).foldlM
            (fun st t => execute_from_node oc nodeMap edges fuel t st.1 st.2)
            (ctx, visited)

/-- What the endpoint returns on success (main.py 284-289). -/
structure RunResult where
  logs : List LogEntry
  final_budget : ℚ
  final_holdings : List (String × ℚ)
  vars : List (String × Value)
deriving DecidableEq

/-- Fuel that dominates the walk depth: every nesting level of
execute_from_node adds a distinct id to visited, and every id comes from
a node or an edge endpoint. -/
def runFuel (nodes : List Node) (edges : List Edge) : ℕ :=
  nodes.length + 2 * edges.length + 1

/-- The run_algo endpoint body (main.py 101-289): build the node map,
reject the graph when no node has category START, then execute the START
nodes in payload order on one shared context — each call
`execute_from_node(start_id)` leaves the `visited` parameter to its
default, so every START node walks with a fresh empty visited set. -/
def run_algo (oc : Oracle) (nodes : List Node) (edges : List Edge) :
    Except Err RunResult :=
  let nodeMap := buildNodeMap nodes
  let start_nodes := (nodes.filter (fun n => n.data.category = some "START")).map Node.id
  if start_nodes = [] then .error .noStartNode
  else do
    let ctx ← start_nodes.foldlM
      (fun c s => do
        let r ← execute_from_node oc nodeMap edges (runFuel nodes edges) s c []
        pure r.1)
      initContext
    pure { logs := ctx.logs, final_budget := ctx.budget,
           final_holdings := ctx.holdings, vars := ctx.vars }

/-! ### The XOR rewrite loop of evaluate_condition

main.py lines 91-93:

    xor_pattern = (a group of a parenthesised run or an identifier run,
                   then optional whitespace, then two carets, then
                   optional whitespace, then a second such group)
    while two adjacent carets occur in resolved:
        resolved = re.sub(xor_pattern, replacement, resolved, count=1)

For this particular pattern Python's backtracking matcher is
deterministic at each start position: a parenthesised operand must stop
at the first closing parenthesis, the identifier run and the whitespace
runs are maximal because a shorter run would leave the next character
unable to match, and the two alternatives are distinguished by the first
character.  The functions below implement exactly that, scanning start
positions left to right as re.sub does. -/

/-- The character class of an identifier operand: [a-zA-Z0-9_.]. -/
def isIdentChar (c : Char) : Bool := c.isAlphanum || c == '_' || c == '.'

/-- One operand of the xor pattern at the current position: a
parenthesised run with no inner closing parenthesis, or a nonempty
identifier run.  Returns the consumed operand and the rest. -/
def matchOperand : List Char → Option (List Char × List Char)
  | '(' :: rest =>
      let body := rest.takeWhile (fun c => c ≠ ')')
      let rest2 := rest.dropWhile (fun c => c ≠ ')')
      match body, rest2 with
      | [], _ => none
      | _, ')' :: rest3 => some ('(' :: body ++ [')'], rest3)
      | _, _ => none
  | cs =>
      let o := cs.takeWhile isIdentChar
      if o = [] then none else some (o, cs.dropWhile isIdentChar)

/-- The whole xor pattern anchored at the current position: operand,
optional whitespace, two carets, optional whitespace, operand. -/
def matchXorAt (cs : List Char) : Option (List Char × List Char × List Char) := do
  let o1 ← matchOperand cs
  match o1.2.dropWhile isSpaceChar with
  | '^' :: '^' :: r2 =>
      let o2 ← matchOperand (r2.dropWhile isSpaceChar)
      some (o1.1, o2.1, o2.2)
  | _ => none

/-- Leftmost match of the xor pattern: the first start position at which
the anchored pattern succeeds, as (prefix, operand1, operand2, suffix). -/
def findXorMatch : List Char → Option (List Char × List Char × List Char × List Char)
  | [] => none
  | c :: rest =>
      match matchXorAt (c :: rest) with
      | some m => some ([], m.1, m.2.1, m.2.2)
      | none =>
          match findXorMatch rest with
          | some m => some (c :: m.1, m.2.1, m.2.2.1, m.2.2.2)
          | none => none

/-- One `re.sub(xor_pattern, replacement, resolved, count=1)`: rewrite
the leftmost match into the bool-inequality form, or return the string
unchanged when nothing matches. -/
def xor_sub (cs : List Char) : List Char :=
  match findXorMatch cs with
  | some m =>
      m.1 ++ ("(bool(".toList ++ m.2.1 ++ ") != bool(".toList ++ m.2.2.1 ++ "))".toList)
        ++ m.2.2.2
  | none => cs

/-- `'^^' in resolved`: two adjacent carets occur somewhere. -/
def containsXX : List Char → Bool
  | '^' :: '^' :: _ => true
  | _ :: rest => containsXX rest
  | [] => false

/-- The `while '^^' in resolved` loop with fuel: `some` is the loop
exiting with the final string, `none` is the fuel running out with the
loop still going.  A string on which the loop never exits yields `none`
at every fuel. -/
def xor_rewrite_loop : ℕ → List Char → Option (List Char)
  | 0, _ => none
  | fuel + 1, cs => if containsXX cs then xor_rewrite_loop fuel (xor_sub cs) else some cs

/-! ### Trade sequences

The BUY/SELL fragment of dispatch, isolated so the budget/holdings
invariant can be stated over an arbitrary sequence of dispatched trade
nodes (each request carries the node's resolved side, ticker, amount and
price). -/

structure TradeReq where
  side : TradeSide
  ticker : String
  amount : ℚ
  price : ℚ

/-- One dispatched BUY/SELL node's effect on the wallet. -/
def applyTrade (w : Wallet) (t : TradeReq) : Except Err Wallet :=
  (tradeStep t.side t.ticker t.amount t.price w).map Prod.fst

/-- A whole sequence of dispatched BUY/SELL nodes from the initial
wallet; every prefix of a sequence is itself a sequence, so a property
of all sequences holds after each dispatch. -/
def runTrades (ts : List TradeReq) : Except Err Wallet :=
  List.foldlM applyTrade initWallet ts

/-- The claimed context invariant: budget and every holdings quantity
are nonnegative. -/
def WalletNonneg (w : Wallet) : Prop :=
  0 ≤ w.budget ∧ ∀ p ∈ w.holdings, 0 ≤ p.2

/-! ### Concrete fixtures used by witnesses and counterexamples -/

def mkNode (i : String) (d : NodeData) : Node := { id := i, data := d }

def startData : NodeData := { emptyData with category := some "START" }

def outData (v : String) : NodeData :=
  { emptyData with category := some "OUTPUT", variableName := some v }

/-- An oracle whose evaluators and price feed always raise; the walk
consults it only where a fixture's graph has such a node. -/
def ocNone : Oracle :=
  { evalMath := fun _ _ => none, evalCond := fun _ _ => none,
    price := fun _ => none, headline := "h", sentiment := fun _ => 0 }

/-- An oracle whose condition evaluator returns True and whose math
evaluator raises. -/
def ocTest : Oracle :=
  { ocNone with evalCond := fun _ _ => some true }

/-- Diamond graph A to B and C, both to D, all OUTPUT but the START. -/
def diamondNodes : List Node :=
  [mkNode "A" startData, mkNode "B" (outData "b"), mkNode "C" (outData "c"),
   mkNode "D" (outData "d")]

def diamondEdges : List Edge :=
  [{ source := "A", target := "B", sourceHandle := none },
   { source := "A", target := "C", sourceHandle := none },
   { source := "B", target := "D", sourceHandle := none },
   { source := "C", target := "D", sourceHandle := none }]

/-- Two START nodes whose edges converge on one OUTPUT node X that logs
variable `v`. -/
def twoStartNodes (v : String) : List Node :=
  [mkNode "S1" startData, mkNode "S2" startData, mkNode "X" (outData v)]

def twoStartEdges : List Edge :=
  [{ source := "S1", target := "X", sourceHandle := none },
   { source := "S2", target := "X", sourceHandle := none }]

/-- A BUY of BTC with manualValue -5 (a negative amount the payload can
freely submit). -/
def buyNegData : NodeData :=
  { emptyData with category := some "BUY", ticker := some "BTC",
                   manualValue := some (Value.num (-5)) }

def buyNegNodes : List Node := [mkNode "S" startData, mkNode "B" buyNegData]

def buyNegEdges : List Edge := [{ source := "S", target := "B", sourceHandle := none }]

/-- A BUY of BTC with manualValue 1. -/
def buyBtcData : NodeData :=
  { emptyData with category := some "BUY", ticker := some "BTC",
                   manualValue := some (Value.num 1) }

/-- A BUY whose ticker DOGE has no holdings entry. -/
def buyDogeData : NodeData :=
  { emptyData with category := some "BUY", ticker := some "DOGE" }

/-- A SELL whose ticker DOGE has no holdings entry. -/
def sellDogeData : NodeData :=
  { emptyData with category := some "SELL", ticker := some "DOGE" }

def sellDogeNodes : List Node := [mkNode "S" startData, mkNode "T" sellDogeData]

def sellDogeEdges : List Edge := [{ source := "S", target := "T", sourceHandle := none }]

/-- A CONDITION node with yes, no and unlabeled successors. -/
def condData : NodeData :=
  { emptyData with category := some "CONDITION", condition := some "x" }

def condNodes : List Node :=
  [mkNode "C" condData, mkNode "Y" (outData "y"), mkNode "N" (outData "n"),
   mkNode "Z" (outData "z")]

def condEdges : List Edge :=
  [{ source := "C", target := "Y", sourceHandle := some "yes" },
   { source := "C", target := "N", sourceHandle := some "no" },
   { source := "C", target := "Z", sourceHandle := none }]

/-- A MATH node whose expression the evaluator rejects, with a successor. -/
def mathFailData : NodeData :=
  { emptyData with category := some "MATH", expression := some "bad" }

def mathNodes : List Node := [mkNode "M" mathFailData, mkNode "O" (outData "o")]

def mathEdges : List Edge := [{ source := "M", target := "O", sourceHandle := none }]

/-- The spec's RISK_ANALYSIS example inputs. -/
def riskExInputs : List RiskInput :=
  [{ value := "r1", weight := some (Value.num 2) },
   { value := "0.5", weight := some (Value.num 1) }]

def riskExVars : List (String × Value) := [("r1", Value.num 1)]

/-- A risk entry with zero value and weight 1. -/
def riskZeroInput : List RiskInput := [{ value := "0", weight := some (Value.num 1) }]

end TradeCraft

deriving instance DecidableEq for Except

namespace TradeCraft

/-! ### Helper lemmas -/

theorem exceptBindOk {α β : Type} (a : α) (f : α → Except Err β) :
    (Except.ok a : Except Err α) >>= f = f a := rfl

theorem exceptBindErr {α β : Type} (e : Err) (f : α → Except Err β) :
    (Except.error e : Except Err α) >>= f = (Except.error e : Except Err β) := rfl

theorem lookupKey_mem {α : Type} :
    ∀ {m : List (String × α)} {k : String} {v : α},
      lookupKey m k = some v → (k, v) ∈ m := by
  intro m
  induction m with
  | nil => intro k v h; simp [lookupKey] at h
  | cons p rest ih =>
      intro k v h
      obtain ⟨k2, v2⟩ := p
      by_cases hk : k2 = k
      · subst hk
        rw [lookupKey, if_pos rfl] at h
        obtain rfl := Option.some.inj h
        exact List.mem_cons_self _ _
      · rw [lookupKey, if_neg hk] at h
        exact List.mem_cons_of_mem _ (ih h)

theorem setKey_forall {α : Type} (P : α → Prop) :
    ∀ (m : List (String × α)) (k : String) (v : α),
      (∀ p ∈ m, P p.2) → P v → ∀ p ∈ setKey m k v, P p.2 := by
  intro m
  induction m with
  | nil =>
      intro k v _ hv p hp
      rw [setKey] at hp
      obtain rfl := List.mem_singleton.1 hp
      exact hv
  | cons q rest ih =>
      intro k v hm hv p hp
      obtain ⟨k2, v2⟩ := q
      by_cases hk : k2 = k
      · rw [setKey, if_pos hk] at hp
        rcases List.mem_cons.1 hp with rfl | hp
        · exact hv
        · exact hm p (List.mem_cons_of_mem _ hp)
      · rw [setKey, if_neg hk] at hp
        rcases List.mem_cons.1 hp with rfl | hp
        · exact hm _ (List.mem_cons_self _ _)
        · exact ih k v (fun q hq => hm q (List.mem_cons_of_mem _ hq)) hv p hp

/-- The loop body never escapes the stuck rewrite: on the string the
first rewrite of `a ^^ b ^^ c` produces, the xor pattern no longer
matches (the left operand now holds nested parentheses) while two
adjacent carets remain, so re.sub returns the string unchanged and the
while loop runs forever. -/
theorem xor_loop_stuck_aux :
    ∀ fuel, xor_rewrite_loop fuel (String.toList "(bool(a) != bool(b)) ^^ c") = none := by
  intro fuel
  induction fuel with
  | zero => rfl
  | succ n ih => exact ih

/-- C2: the claim that the exclusive-or rewriting terminates on every
condition string is wrong: on the chained condition `a ^^ b ^^ c` the
first application rewrites the first occurrence into
`(bool(a) != bool(b)) ^^ c`, after which the pattern can never match
again although two adjacent carets remain, so the while loop of
evaluate_condition (main.py 92-93) never exits: the fueled model returns
fuel exhaustion at every fuel. -/
theorem xor_rewrite_loop_diverges_on_chained_xor :
    ∀ fuel, xor_rewrite_loop fuel (String.toList "a ^^ b ^^ c") = none := by
  intro fuel
  cases fuel with
  | zero => rfl
  | succ n => exact xor_loop_stuck_aux n

/-- C7: a node id already in `visited` is a no-op for the whole walk
(main.py 120-121), and on the diamond graph A to B and C, both to D,
started at A, node D produces exactly one log entry. -/
theorem visited_node_noop_and_diamond_once :
    (∀ (oc : Oracle) (nodeMap : List (String × NodeData)) (edges : List Edge)
        (fuel : ℕ) (node_id : String) (ctx : TradingContext) (visited : List String),
        node_id ∈ visited →
        execute_from_node oc nodeMap edges (fuel + 1) node_id ctx visited = .ok (ctx, visited))
    ∧ Except.map (fun r => r.logs.count (LogEntry.outputLog "d" none))
        (run_algo ocNone diamondNodes diamondEdges) = .ok 1 := by
  constructor
  · intro oc nodeMap edges fuel node_id ctx visited h
    simp [execute_from_node, h]
  · rfl

/-- C9: a submitted graph in which no node has category START is
rejected with the no-START error before any node executes (main.py
277-279): the endpoint returns the rejection and no context escapes. -/
theorem run_algo_no_start_rejected (oc : Oracle) (nodes : List Node) (edges : List Edge)
    (h : ∀ n ∈ nodes, n.data.category ≠ some "START") :
    run_algo oc nodes edges = .error .noStartNode := by
  have hf : nodes.filter (fun n => n.data.category = some "START") = [] := by
    rw [List.filter_eq_nil_iff]
    intro n hn
    simpa using h n hn
  simp [run_algo, hf]

theorem run_algo_no_start_rejected_witness :
    run_algo ocNone [mkNode "M" mathFailData] [] = .error .noStartNode :=
  run_algo_no_start_rejected ocNone [mkNode "M" mathFailData] [] (by decide)

/-- C1 as stated is false on the code: with two START nodes S1 and S2
both feeding one OUTPUT node X, X is dispatched once per START (two X
log entries), not skipped on the second reach, because run_algo calls
execute_from_node(start_id) with a fresh default visited set per START
(main.py 116, 281-282). -/
theorem run_algo_two_starts_revisits_node :
    run_algo ocNone (twoStartNodes "x") twoStartEdges =
      .ok { logs := [.startLog, .outputLog "x" none, .startLog, .outputLog "x" none],
            final_budget := 0, final_holdings := [("BTC", 0), ("ETH", 0)], vars := [] }
    ∧ ¬ ([LogEntry.startLog, .outputLog "x" none, .startLog,
          .outputLog "x" none].count (LogEntry.outputLog "x" none) ≤ 1) := by
  constructor
  · rfl
  · decide

/-- C1 amended: START nodes run in payload order on one shared context,
but each with its own fresh empty visited set, so a node already
dispatched under an earlier START is dispatched again from a later
START: for every variable name v, the two-START fixture logs START then
X, then START then X again. -/
theorem run_algo_fresh_visited_per_start (v : String) :
    run_algo ocNone (twoStartNodes v) twoStartEdges =
      .ok { logs := [.startLog, .outputLog v none, .startLog, .outputLog v none],
            final_budget := 0, final_holdings := [("BTC", 0), ("ETH", 0)], vars := [] } := by
  rfl

/-- C3 as stated is false on the code: a BUY with manualValue -5 and
price 0 passes the affordability check and leaves holdings[BTC] = -5. -/
theorem run_algo_buy_negative_amount_holdings_negative :
    run_algo ocNone buyNegNodes buyNegEdges =
      .ok { logs := [.startLog, .bought (-5) "BTC" 0],
            final_budget := 0, final_holdings := [("BTC", -5), ("ETH", 0)], vars := [] }
    ∧ ((-5 : ℚ) < 0) := by
  constructor
  · with_unfolding_all rfl
  · decide

/-- The result a successful RISK_ANALYSIS dispatch computes, as a
function of the accumulated weighted sum and weight total. -/
theorem riskScore_formula (vars : List (String × Value)) (items : List RiskInput)
    (s t r : ℚ) (h1 : riskAccum vars items = .ok (s, t))
    (h2 : riskScore vars items = .ok r) :
    r = min 1 (if 0 < t then |s / t| else 0) := by
  unfold riskScore at h2
  rw [h1] at h2
  simp only [exceptBindOk, Except.ok.injEq] at h2
  exact h2.symm

/-- C8 amended: a successful RISK_ANALYSIS result equals
`min 1 (abs (s / t))` when the weight total t is positive and 0 when
t is not positive (so a result of 0 does not force t = 0); every
successful result lies in [0, 1]; and the spec's example with inputs
r1 weighted 2 and literal 0.5 weighted 1 under r1 = 1 yields 5/6
(the 0.8333 of the claim); an unparsable literal resolves to 0. -/
theorem riskScore_characterization :
    (∀ (vars : List (String × Value)) (items : List RiskInput) (s t r : ℚ),
        riskAccum vars items = .ok (s, t) → riskScore vars items = .ok r →
        r = min 1 (if 0 < t then |s / t| else 0))
    ∧ (∀ (vars : List (String × Value)) (items : List RiskInput) (r : ℚ),
        riskScore vars items = .ok r → 0 ≤ r ∧ r ≤ 1)
    ∧ riskScore riskExVars riskExInputs = .ok (5 / 6)
    ∧ riskResolve [] { value := "abc", weight := none } = .ok 0 := by
  refine ⟨riskScore_formula, ?_, ?_, ?_⟩
  · intro vars items r h
    cases hacc : riskAccum vars items with
    | error e =>
        unfold riskScore at h
        rw [hacc] at h
        exact absurd h (by simp [exceptBindErr])
    | ok st =>
        obtain ⟨s, t⟩ := st
        have hr := riskScore_formula vars items s t r hacc h
        have hx : (0 : ℚ) ≤ if 0 < t then |s / t| else 0 := by
          split_ifs
          · exact abs_nonneg _
          · exact le_refl 0
        exact ⟨hr ▸ le_min zero_le_one hx, hr ▸ min_le_left 1 _⟩
  · with_unfolding_all rfl
  · with_unfolding_all rfl

/-- C8 as stated is false in its "0 exactly when the weight total is 0"
part: one entry with value 0 and weight 1 accumulates weight total 1 and
still scores 0. -/
theorem riskScore_zero_with_nonzero_weight_total :
    riskAccum [] riskZeroInput = .ok (0, 1)
    ∧ riskScore [] riskZeroInput = .ok 0
    ∧ (1 : ℚ) ≠ 0 := by
  refine ⟨?_, ?_, by norm_num⟩
  · with_unfolding_all rfl
  · with_unfolding_all rfl

/-- C10: the holdings map is created with exactly the keys BTC and ETH;
a SELL whose ticker is any other symbol raises KeyError from its own
guard `ctx.holdings[ticker] >= amt`, a BUY with any other symbol whose
affordability check passes raises KeyError from `holdings[ticker] += amt`,
and the exception is not caught anywhere, so the whole run aborts (the
fixture run on START to SELL DOGE returns the KeyError instead of a
result). -/
theorem unknown_ticker_aborts_run :
    initContext.holdings.map Prod.fst = ["BTC", "ETH"]
    ∧ (∀ (oc : Oracle) (data : NodeData) (ctx : TradingContext) (amt : ℚ),
        data.category = some "SELL" →
        coerceOrZero data.manualValue = .ok amt →
        lookupKey ctx.holdings (data.ticker.getD "BTC") = none →
        dispatch oc data ctx = .error (.keyError (data.ticker.getD "BTC")))
    ∧ (∀ (oc : Oracle) (data : NodeData) (ctx : TradingContext) (amt : ℚ),
        data.category = some "BUY" →
        coerceOrZero data.manualValue = .ok amt →
        amt * priceOf ctx.last_output ≤ ctx.budget →
        lookupKey ctx.holdings (data.ticker.getD "BTC") = none →
        dispatch oc data ctx = .error (.keyError (data.ticker.getD "BTC")))
    ∧ run_algo ocNone sellDogeNodes sellDogeEdges = .error (.keyError "DOGE") := by
  refine ⟨rfl, ?_, ?_, ?_⟩
  · intro oc data ctx amt hcat hamt hlk
    simp [dispatch, hcat, hamt, tradeStep, hlk, exceptBindOk, exceptBindErr]
  · intro oc data ctx amt hcat hamt hle hlk
    simp [dispatch, hcat, hamt, tradeStep, hlk, hle, exceptBindOk, exceptBindErr]
  · with_unfolding_all rfl

/-- C4 amended: for a BUY dispatch whose ticker has a holdings entry h
(as BTC and ETH always do), with amount amt from manualValue and price
from last_output: the trade succeeds exactly when amt * price is at most
the budget, in which case the budget drops by amt * price and the
ticker's holdings rise by amt; otherwise only a failure line is logged
and budget and holdings are untouched. -/
theorem dispatch_buy_characterization (oc : Oracle) (data : NodeData)
    (ctx : TradingContext) (amt h : ℚ)
    (hcat : data.category = some "BUY")
    (hamt : coerceOrZero data.manualValue = .ok amt)
    (hh : lookupKey ctx.holdings (data.ticker.getD "BTC") = some h) :
    dispatch oc data ctx =
      .ok (if amt * priceOf ctx.last_output ≤ ctx.budget then
            { ctx with budget := ctx.budget - amt * priceOf ctx.last_output,
                       holdings := setKey ctx.holdings (data.ticker.getD "BTC") (h + amt),
                       logs := ctx.logs ++
                         [.bought amt (data.ticker.getD "BTC") (priceOf ctx.last_output)],
                       last_output := none }
          else { ctx with logs := ctx.logs ++ [.tradeFailed], last_output := none }) := by
  by_cases hle : amt * priceOf ctx.last_output ≤ ctx.budget
  · simp [dispatch, hcat, hamt, tradeStep, hh, hle, exceptBindOk]
  · simp [dispatch, hcat, hamt, tradeStep, hh, hle, exceptBindOk]

theorem dispatch_buy_characterization_witness :
    dispatch ocNone buyBtcData initContext =
      .ok (if (1 : ℚ) * priceOf initContext.last_output ≤ initContext.budget then
            { initContext with
                budget := initContext.budget - 1 * priceOf initContext.last_output,
                holdings := setKey initContext.holdings (buyBtcData.ticker.getD "BTC") (0 + 1),
                logs := initContext.logs ++
                  [.bought 1 (buyBtcData.ticker.getD "BTC") (priceOf initContext.last_output)],
                last_output := none }
          else { initContext with logs := initContext.logs ++ [.tradeFailed],
                                  last_output := none }) :=
  dispatch_buy_characterization ocNone buyBtcData initContext 1 0 rfl
    (by with_unfolding_all rfl) rfl

/-- C4 as stated is false for a ticker outside the holdings map: a BUY
of DOGE with amount 0 and price 0 passes the affordability check
(0 is at most the budget), yet instead of succeeding it raises KeyError
and no log line is produced. -/
theorem dispatch_buy_unknown_ticker_raises :
    coerceOrZero buyDogeData.manualValue = .ok 0
    ∧ (0 : ℚ) * priceOf initContext.last_output ≤ initContext.budget
    ∧ dispatch ocNone buyDogeData initContext = .error (.keyError "DOGE") := by
  refine ⟨rfl, ?_, ?_⟩
  · norm_num [priceOf, initContext]
  · with_unfolding_all rfl

/-- A successful tradeStep preserves nonnegative budget and holdings
when the dispatched amount and price are nonnegative. -/
theorem tradeStep_wallet_nonneg (side : TradeSide) (ticker : String)
    (amt price : ℚ) (w w' : Wallet) (entry : LogEntry)
    (hw : WalletNonneg w) (ha : 0 ≤ amt) (hp : 0 ≤ price)
    (h : tradeStep side ticker amt price w = .ok (w', entry)) :
    WalletNonneg w' := by
  cases side with
  | buy =>
      simp only [tradeStep] at h
      split at h
      · rename_i hle
        split at h
        · exact Except.noConfusion h
        · rename_i hq hlk
          simp only [Except.ok.injEq, Prod.mk.injEq] at h
          obtain ⟨h1, -⟩ := h
          rw [← h1]
          refine ⟨sub_nonneg.mpr hle, ?_⟩
          exact setKey_forall _ w.holdings ticker (hq + amt) hw.2
            (add_nonneg (hw.2 (ticker, hq) (lookupKey_mem hlk)) ha)
      · simp only [Except.ok.injEq, Prod.mk.injEq] at h
        obtain ⟨h1, -⟩ := h
        rw [← h1]
        exact hw
  | sell =>
      simp only [tradeStep] at h
      split at h
      · exact Except.noConfusion h
      · rename_i hq hlk
        split at h
        · rename_i hge
          simp only [Except.ok.injEq, Prod.mk.injEq] at h
          obtain ⟨h1, -⟩ := h
          rw [← h1]
          refine ⟨add_nonneg hw.1 (mul_nonneg ha hp), ?_⟩
          exact setKey_forall _ w.holdings ticker (hq - amt) hw.2 (sub_nonneg.mpr hge)
        · simp only [Except.ok.injEq, Prod.mk.injEq] at h
          obtain ⟨h1, -⟩ := h
          rw [← h1]
          exact hw

theorem trades_nonneg_aux :
    ∀ (ts : List TradeReq) (w0 : Wallet), WalletNonneg w0 →
      (∀ t ∈ ts, 0 ≤ t.amount ∧ 0 ≤ t.price) →
      ∀ w, List.foldlM applyTrade w0 ts = .ok w → WalletNonneg w := by
  intro ts
  induction ts with
  | nil =>
      intro w0 h0 _ w h
      rw [List.foldlM_nil] at h
      have h2 : (Except.ok w0 : Except Err Wallet) = .ok w := h
      obtain rfl := Except.ok.inj h2
      exact h0
  | cons t rest ih =>
      intro w0 h0 hts w h
      rw [List.foldlM_cons] at h
      cases hat : applyTrade w0 t with
      | error e => rw [hat] at h; exact absurd h (by simp [exceptBindErr])
      | ok w1 =>
          rw [hat, exceptBindOk] at h
          have hw1 : WalletNonneg w1 := by
            unfold applyTrade at hat
            cases hstep : tradeStep t.side t.ticker t.amount t.price w0 with
            | error e => rw [hstep] at hat; exact absurd hat (by simp [Except.map])
            | ok pr =>
                rw [hstep] at hat
                have hfst : pr.1 = w1 := by simpa [Except.map] using hat
                have hmem := hts t (List.mem_cons_self _ _)
                exact hfst ▸ tradeStep_wallet_nonneg t.side t.ticker t.amount t.price
                  w0 pr.1 pr.2 h0 hmem.1 hmem.2 (by rw [hstep])
          exact ih w1 hw1 (fun u hu => hts u (List.mem_cons_of_mem _ hu)) w h

/-- C3 amended: over every sequence of dispatched BUY/SELL nodes whose
amounts and prices are all nonnegative, the budget and every holdings
entry stay nonnegative (every prefix of a sequence is a sequence, so
this holds after each dispatch).  Without the nonnegativity restriction
the claim is false: see the negative-amount counterexample. -/
theorem trades_nonneg_invariant (ts : List TradeReq)
    (hts : ∀ t ∈ ts, 0 ≤ t.amount ∧ 0 ≤ t.price) (w : Wallet)
    (h : runTrades ts = .ok w) : WalletNonneg w := by
  have hi : WalletNonneg initWallet := by
    constructor
    · norm_num [initWallet, initContext]
    · intro p hp
      have hp2 : p = ("BTC", (0 : ℚ)) ∨ p = ("ETH", 0) := by
        simpa [initWallet, initContext] using hp
      rcases hp2 with rfl | rfl <;> norm_num
  exact trades_nonneg_aux ts initWallet hi hts w h

theorem trades_nonneg_invariant_witness :
    WalletNonneg { budget := 0, holdings := [("BTC", 1), ("ETH", 0)] } :=
  trades_nonneg_invariant [⟨TradeSide.buy, "BTC", 1, 0⟩]
    (by
      intro t ht
      rw [List.mem_singleton] at ht
      subst ht
      constructor <;> norm_num)
    _ (by with_unfolding_all rfl)

/-- One condStep selects a target exactly when the edge handle matches
the boolean result. -/
theorem condStep_eq {σ : Type} (g : String → σ → Except Err σ) (b : Bool)
    (st : σ) (p : String × Option String) :
    condStep g b st p = if p.2 = some (condHandle b) then g p.1 st else .ok st := by
  cases b with
  | false =>
      by_cases hp : p.2 = some "no"
      · simp [condStep, condHandle, hp]
      · simp [condStep, condHandle, hp]
  | true =>
      by_cases hp : p.2 = some "yes"
      · simp [condStep, condHandle, hp]
      · simp [condStep, condHandle, hp]

/-- Folding condStep over an edge list is folding the recursive call
over exactly the edges whose handle matches the result. -/
theorem foldlM_condStep_filter {σ : Type} (g : String → σ → Except Err σ) (b : Bool) :
    ∀ (l : List (String × Option String)) (st : σ),
      List.foldlM (condStep g b) st l
        = List.foldlM (fun st p => g p.1 st) st
            (l.filter fun p => p.2 = some (condHandle b)) := by
  intro l
  induction l with
  | nil => intro st; rfl
  | cons p rest ih =>
      intro st
      rw [List.foldlM_cons, List.filter_cons, condStep_eq]
      by_cases hp : p.2 = some (condHandle b)
      · rw [if_pos hp, if_pos (by simpa using hp), List.foldlM_cons]
        cases hg : g p.1 st with
        | error e => simp only [exceptBindErr]
        | ok st2 => simp only [exceptBindOk]; exact ih st2
      · rw [if_neg hp, if_neg (by simpa using hp)]
        simp only [exceptBindOk]
        exact ih st

/-- C5: a fresh CONDITION node whose condition evaluates to b recurses
into exactly the outgoing edges whose handle is yes when b is true and
no when b is false (matchedPairs is that filter), never both branches,
and never continues into the remaining successors: the walk equals the
fold of the recursive call over the matched edges alone. -/
theorem execute_condition_matched_branches_only
    (oc : Oracle) (nodeMap : List (String × NodeData)) (edges : List Edge)
    (fuel : ℕ) (node_id : String) (ctx : TradingContext) (visited : List String)
    (data : NodeData) (b : Bool)
    (hv : ¬ node_id ∈ visited)
    (hlk : lookupKey nodeMap node_id = some data)
    (hcat : data.category = some "CONDITION")
    (hcond : pyStrip (data.condition.getD "") ≠ "")
    (heval : oc.evalCond (pyStrip (data.condition.getD "")) ctx.vars = some b) :
    execute_from_node oc nodeMap edges (fuel + 1) node_id ctx visited =
      List.foldlM
        (fun st p => execute_from_node oc nodeMap edges fuel p.1 st.1 st.2)
        ({ ctx with logs := ctx.logs ++ [.condEval (pyStrip (data.condition.getD "")) b] },
          node_id :: visited)
        (matchedPairs edges node_id b) := by
  simp only [execute_from_node]
  rw [if_neg hv]
  simp only [hlk]
  rw [if_pos hcat, if_pos hcond]
  simp only [heval]
  exact foldlM_condStep_filter _ b (outgoingPairs edges node_id) _

theorem execute_condition_matched_branches_only_witness :
    execute_from_node ocTest (buildNodeMap condNodes) condEdges 2 "C" initContext [] =
      List.foldlM
        (fun st p => execute_from_node ocTest (buildNodeMap condNodes) condEdges 1 p.1 st.1 st.2)
        ({ initContext with
            logs := initContext.logs ++ [.condEval (pyStrip (condData.condition.getD "")) true] },
          ["C"])
        (matchedPairs condEdges "C" true) :=
  execute_condition_matched_branches_only ocTest (buildNodeMap condNodes) condEdges 1 "C"
    initContext [] condData true (by simp) rfl rfl (by decide) rfl

/-- C6: a fresh MATH node whose expression fails to evaluate logs the
error, sets last_output to 0 instead of aborting, and the walk then
continues into all of the node's successors exactly as on success. -/
theorem execute_math_failure_continues_all_successors
    (oc : Oracle) (nodeMap : List (String × NodeData)) (edges : List Edge)
    (fuel : ℕ) (node_id : String) (ctx : TradingContext) (visited : List String)
    (data : NodeData)
    (hv : ¬ node_id ∈ visited)
    (hlk : lookupKey nodeMap node_id = some data)
    (hcat : data.category = some "MATH")
    (hexpr : pyStrip (data.expression.getD "") ≠ "")
    (heval : oc.evalMath (pyStrip (data.expression.getD "")) ctx.vars = none) :
    execute_from_node oc nodeMap edges (fuel + 1) node_id ctx visited =
      List.foldlM
        (fun st t => execute_from_node oc nodeMap edges fuel t st.1 st.2)
        ({ ctx with logs := ctx.logs ++ [.mathError], last_output := some (.num 0) },
          node_id :: visited)
        (outgoingTargets edges node_id) := by
  simp only [execute_from_node]
  rw [if_neg hv]
  simp only [hlk]
  rw [if_neg (show ¬ data.category = some "CONDITION" by simp [hcat])]
  have hd : dispatch oc data ctx =
      .ok { ctx with logs := ctx.logs ++ [.mathError], last_output := some (.num 0) } := by
    simp [dispatch, hcat, hexpr, heval]
  rw [hd, exceptBindOk]

theorem execute_math_failure_continues_all_successors_witness :
    execute_from_node ocTest (buildNodeMap mathNodes) mathEdges 2 "M" initContext [] =
      List.foldlM
        (fun st t => execute_from_node ocTest (buildNodeMap mathNodes) mathEdges 1 t st.1 st.2)
        ({ initContext with logs := initContext.logs ++ [.mathError],
                            last_output := some (.num 0) },
          ["M"])
        (outgoingTargets mathEdges "M") :=
  execute_math_failure_continues_all_successors ocTest (buildNodeMap mathNodes) mathEdges 1
    "M" initContext [] mathFailData (by simp) rfl rfl (by decide) rfl

end TradeCraft
